import Mathlib

/-!
Shallow embedding of the game-client request authentication protocol and
highscore retention engine of `topbanana-backend` (files
`src/server/requests/mod.rs`, `src/server/requests/hasher.rs`,
`src/server/highscore_tables.rs`, `src/server/api.rs`,
`src/server/error/mod.rs`), together with proofs of the specified
properties.

Modelling conventions:
* UUIDs are modelled as `Nat` (only equality is ever used on them).
* Byte strings (`Vec<u8>`, `Box<[u8]>`) are `List Nat`.
* Timestamps (`NaiveDateTime` at the second granularity used by the
  `ts_seconds` serializer) and `TimeDelta` are `Int` seconds.
* `f64` scores are modelled as `Int`: the code never performs arithmetic on
  scores, only SQL ordering comparisons.
* External crates (`sha1`, `sha2`, `serde_json`) are abstracted as function
  parameters; everything written in the repository itself is translated
  directly.
* Database statements execute outside any transaction in
  `full_verify_at_time`, so each statement observes the then-current ledger
  state; the embedding therefore takes one ledger snapshot per statement.
-/

namespace TopBanana

/-- UUIDs: only compared for equality in the modelled code. -/
abbrev Uuid := Nat

/-! ### base64url decoding (`base64::engine::general_purpose::URL_SAFE`)

The `URL_SAFE` engine uses the `-`/`_` alphabet with canonical `=` padding
required and trailing bits required to be zero. -/

/-- Value of a single character of the base64url alphabet. -/
def b64urlCharValue (c : Char) : Option Nat :=
  if 'A' ≤ c ∧ c ≤ 'Z' then some (c.toNat - 65)
  else if 'a' ≤ c ∧ c ≤ 'z' then some (c.toNat - 97 + 26)
  else if '0' ≤ c ∧ c ≤ '9' then some (c.toNat - 48 + 52)
  else if c = '-' then some 62
  else if c = '_' then some 63
  else none

/-- Decode a list of base64url characters (with canonical padding) into
bytes.  Chunks of four characters each; `=` may appear only as canonical
padding of the final chunk, and unused trailing bits must be zero. -/
def b64urlDecodeList : List Char → Option (List Nat)
  | [] => some []
  | a :: b :: c :: d :: rest =>
    if rest.isEmpty then
      if c = '=' ∧ d = '=' then
        match b64urlCharValue a, b64urlCharValue b with
        | some va, some vb =>
          if vb % 16 = 0 then some [va * 4 + vb / 16] else none
        | _, _ => none
      else if d = '=' then
        match b64urlCharValue a, b64urlCharValue b, b64urlCharValue c with
        | some va, some vb, some vc =>
          if vc % 4 = 0 then
            some [va * 4 + vb / 16, (vb % 16) * 16 + vc / 4]
          else none
        | _, _, _ => none
      else
        match b64urlCharValue a, b64urlCharValue b, b64urlCharValue c, b64urlCharValue d with
        | some va, some vb, some vc, some vd =>
          some [va * 4 + vb / 16, (vb % 16) * 16 + vc / 4, (vc % 4) * 64 + vd]
        | _, _, _, _ => none
    else
      match b64urlCharValue a, b64urlCharValue b, b64urlCharValue c, b64urlCharValue d,
          b64urlDecodeList rest with
      | some va, some vb, some vc, some vd, some bytes =>
        some ([va * 4 + vb / 16, (vb % 16) * 16 + vc / 4, (vc % 4) * 64 + vd] ++ bytes)
      | _, _, _, _, _ => none
  | _ => none

/-- Decode a base64url string (the `URL_SAFE.decode` calls of the source). -/
def b64urlDecode (s : String) : Option (List Nat) :=
  b64urlDecodeList s.data

/-! ### `hasher.rs`: security levels and signing hashers -/

/-- Security level of the hashing algorithms (`SecurityLevel` in
`hasher.rs`). -/
inductive SecurityLevel where
  | Low
  | High
deriving DecidableEq, Repr

/-- The `From<SecurityLevel> for i32` conversion: `Low = 0`, `High = 10`. -/
def SecurityLevel.toInt : SecurityLevel → Int
  | .Low => 0
  | .High => 10

/-- A signing hasher (`dyn RequestSigningHasher`): a security level together
with a hash function.  The concrete digest computations (`sha1`, `sha2`
crates) are external, so `apply_hash` is carried as data. -/
structure Hasher where
  security_level : SecurityLevel
  apply_hash : String → List Nat

/-- Chosen algorithm for a game request (`RequestAlgorithm`). -/
inductive RequestAlgorithm where
  | Sha1
  | Sha256
deriving DecidableEq, Repr

/-- The `RequestAlgorithm::into_hasher` dispatch.  `sha1Fn` and `sha256Fn`
stand for the external SHA-1 / SHA-256 digest functions; the security level
of each variant is fixed by the `RequestSigningHasher` impls. -/
def RequestAlgorithm.into_hasher (sha1Fn sha256Fn : String → List Nat) :
    RequestAlgorithm → Hasher
  | .Sha1 => { security_level := .Low, apply_hash := sha1Fn }
  | .Sha256 => { security_level := .High, apply_hash := sha256Fn }

/-! ### Request payloads and error taxonomy (`requests/mod.rs`) -/

/-- The two-part base64url envelope (`GameRequestPayload`). -/
structure GameRequestPayload where
  payload_base64 : String
  signature_base64 : String
deriving DecidableEq, Repr

/-- The `VerificationError` struct (a single opaque value). -/
inductive VerificationError where
  | mk
deriving DecidableEq, Repr

/-- The `DeserializeError` enum. -/
inductive DeserializeError where
  | JsonError
  | Base64Error
  | Utf8Error
deriving DecidableEq, Repr

/-- Kinds of `diesel::result::DatabaseErrorKind` distinguished by the
`From<DieselError> for ApiError` conversion. -/
inductive DatabaseErrorKind where
  | UniqueViolation
  | ForeignKeyViolation
  | OtherKind
deriving DecidableEq, Repr

/-- The subset of `diesel::result::Error` shapes distinguished by the code:
`NotFound`, `DatabaseError(kind, info)` and anything else. -/
inductive DieselError where
  | NotFound
  | DatabaseError (kind : DatabaseErrorKind) (message : String)
  | OtherError
deriving DecidableEq, Repr

/-- The `RequestBodyVerifyError` enum. -/
inductive RequestBodyVerifyError where
  | DeserializeError (e : DeserializeError)
  | DieselError (e : DieselError)
  | NoSuchGame
  | VerificationError (e : VerificationError)
  | BadRequestTimestamp
  | RequestAlreadySeen
  | SecurityLevelNotAttained
deriving DecidableEq, Repr

/-! ### `error/mod.rs`: `ApiError` and the conversions into it -/

/-- An API error: an HTTP status code plus a message
(`ApiError` in `error/mod.rs`). -/
structure ApiError where
  status : Nat
  message : String
deriving DecidableEq, Repr

def ApiError.bad_request : ApiError := ⟨400, "Bad Request"⟩

def ApiError.unauthorized : ApiError := ⟨401, "Unauthorized"⟩

def ApiError.forbidden : ApiError := ⟨403, "Forbidden"⟩

def ApiError.not_found : ApiError := ⟨404, "Not Found"⟩

def ApiError.conflict (message : String) : ApiError := ⟨409, message⟩

def ApiError.internal_server_error (message : String) : ApiError := ⟨500, message⟩

def ApiError.with_message (e : ApiError) (message : String) : ApiError :=
  { e with message := message }

/-- The `From<DieselError> for ApiError` conversion. -/
def ApiError.fromDiesel : DieselError → ApiError
  | .NotFound => ApiError.not_found
  | .DatabaseError .UniqueViolation info =>
    ApiError.conflict ("Uniqueness error: " ++ info)
  | .DatabaseError .ForeignKeyViolation info =>
    ApiError.bad_request.with_message ("Foreign key violation: " ++ info)
  | .DatabaseError .OtherKind _ =>
    ApiError.internal_server_error "An unexpected database error occurred"
  | .OtherError =>
    ApiError.internal_server_error "An unexpected database error occurred"

/-- The `From<RequestBodyVerifyError> for ApiError` conversion
(`requests/mod.rs`, lines 213–225). -/
def ApiError.fromRequestBodyVerifyError : RequestBodyVerifyError → ApiError
  | .DeserializeError _ => ApiError.bad_request
  | .DieselError e => ApiError.fromDiesel e
  | .VerificationError _ => ApiError.forbidden
  | .BadRequestTimestamp => ApiError.forbidden
  | .RequestAlreadySeen => ApiError.forbidden
  | .NoSuchGame => ApiError.not_found.with_message "No such game"
  | .SecurityLevelNotAttained =>
    ApiError.forbidden.with_message "Invalid low-security algorithm"

/-! ### `GameRequestPayload::verify` and `::deserialize` -/

/-- The `GameRequestPayload::verify` method: recompute the signature of
`payload_base64 ++ "." ++ secret_key` under the hasher, base64url-decode the
given signature, and compare byte for byte.  A decode failure of the
signature and a byte mismatch both surface as `VerificationError`. -/
def GameRequestPayload.verify (p : GameRequestPayload) (secret_key : String)
    (hasher : Hasher) : Except VerificationError Unit :=
  let full_payload := p.payload_base64 ++ "." ++ secret_key
  let expected_signature := hasher.apply_hash full_payload
  match b64urlDecode p.signature_base64 with
  | none => .error .mk
  | some given_signature =>
    if expected_signature ≠ given_signature then .error .mk
    else .ok ()

/-- The `GameRequestPayload::deserialize` method.  The base64url step is
modelled directly; UTF-8 decoding plus `serde_json` parsing are external
(`serde_json` crate) and are abstracted as the parameter `jsonFromStr`,
which consumes the decoded bytes. -/
def GameRequestPayload.deserialize {T : Type} (p : GameRequestPayload)
    (jsonFromStr : List Nat → Except DeserializeError T) :
    Except DeserializeError T :=
  match b64urlDecode p.payload_base64 with
  | none => .error .Base64Error
  | some bytes => jsonFromStr bytes

/-! ### Database rows (`db/schema.rs`, `db/models.rs`) -/

/-- A row of the `games` table, restricted to the columns read by the
verification pipeline (`game_uuid`, `game_secret_key`, `security_level`)
plus the primary key used by joins. -/
structure GameRow where
  id : Int
  game_uuid : Uuid
  game_secret_key : String
  security_level : Int
deriving DecidableEq, Repr

/-- A row of the `highscore_tables` table (columns used by the modelled
endpoints). -/
structure HighscoreTableRow where
  id : Int
  game_id : Int
  table_uuid : Uuid
  maximum_scores_retained : Option Int
deriving DecidableEq, Repr

/-- A row of the `highscore_table_entries` table.  `player_score` is `f64`
in the source; it is modelled as `Int` because the code only ever compares
scores (SQL `ORDER BY`), never computes with them. -/
structure HighscoreTableEntryRow where
  id : Int
  highscore_table_id : Int
  player_name : String
  player_score : Int
  player_score_metadata : Option String
  creation_timestamp : Int
deriving DecidableEq, Repr

/-! ### `GameRequestBody` and `full_verify_at_time` -/

/-- The decoded body of a game request (`GameRequestBody<T>`). -/
structure GameRequestBody (T : Type) where
  game_uuid : Uuid
  request_uuid : Uuid
  request_timestamp : Int
  algo : RequestAlgorithm
  body : T

/-- `GameRequestBody::TIME_SKEW = TimeDelta::days(2)`, in seconds. -/
def TIME_SKEW : Int := 2 * 86400

/-- The `games` lookup of `full_verify_at_time`: filter on `game_uuid`,
select `(game_secret_key, security_level)`, first row if any. -/
def firstGameKeyAndLevel (games : List GameRow) (gu : Uuid) :
    Option (String × Int) :=
  (games.filter (fun g => g.game_uuid = gu)).head?.map
    (fun g => (g.game_secret_key, g.security_level))

/-- Modelled from the spec: the uniqueness constraint on
`historical_requests.request_uuid` lives in the database migrations, which
are not part of the sources here; spec §4.3 step 7 and §9 require the
ledger insert to fail distinguishably (a unique-violation conflict from the
store) when the identifier is already present.  On success the row is
appended. -/
def insertHistoricalRequest (ledger : List Uuid) (u : Uuid) :
    Except DieselError (List Uuid) :=
  if u ∈ ledger then
    .error (.DatabaseError .UniqueViolation
      "duplicate key value violates unique constraint")
  else .ok (ledger ++ [u])

/-- The `GameRequestBody::<T>::full_verify_at_time` pipeline.  Parameters:

* `jsonFromStr` — the external `serde_json` deserialization of the decoded
  payload bytes into a `GameRequestBody T`;
* `sha1Fn`, `sha256Fn` — the external digest functions;
* `games` — the `games` table (read once by the lookup);
* `ledgerAtCheck` — the `historical_requests` table as observed by the
  `exists` query;
* `ledgerAtInsert` — the `historical_requests` table as observed by the
  subsequent insert.  The source runs these two statements outside any
  transaction, so a concurrent commit may change the table between them;
  sequential execution is the special case `ledgerAtInsert = ledgerAtCheck`.

Returns the verified body together with the ledger after the insert. -/
def full_verify_at_time {T : Type}
    (jsonFromStr : List Nat → Except DeserializeError (GameRequestBody T))
    (sha1Fn sha256Fn : String → List Nat)
    (payload : GameRequestPayload)
    (games : List GameRow)
    (ledgerAtCheck ledgerAtInsert : List Uuid)
    (now : Int) :
    Except RequestBodyVerifyError (GameRequestBody T × List Uuid) :=
  match payload.deserialize jsonFromStr with
  | .error e => .error (.DeserializeError e)
  | .ok body =>
    let hasher := body.algo.into_hasher sha1Fn sha256Fn
    match firstGameKeyAndLevel games body.game_uuid with
    | none => .error .NoSuchGame
    | some (secret_key, security_level) =>
      if hasher.security_level.toInt < security_level then
        .error .SecurityLevelNotAttained
      else
        match payload.verify secret_key hasher with
        | .error e => .error (.VerificationError e)
        | .ok () =>
          let time_diff := now - body.request_timestamp
          if |time_diff| > TIME_SKEW then
            .error .BadRequestTimestamp
          else if body.request_uuid ∈ ledgerAtCheck then
            .error .RequestAlreadySeen
          else
            match insertHistoricalRequest ledgerAtInsert body.request_uuid with
            | .error e => .error (.DieselError e)
            | .ok ledger => .ok (body, ledger)

/-! ### Canonical ranking and the retention engine (`highscore_tables.rs`) -/

/-- The SQL ordering `(player_score DESC, creation_timestamp ASC)` used both
by the retention subquery and by `get_scores_for_table`. -/
def scoreRank (a b : HighscoreTableEntryRow) : Prop :=
  b.player_score < a.player_score ∨
    (a.player_score = b.player_score ∧ a.creation_timestamp ≤ b.creation_timestamp)

instance : DecidableRel scoreRank := fun a b => by
  unfold scoreRank; infer_instance

instance : IsTotal HighscoreTableEntryRow scoreRank where
  total a b := by
    unfold scoreRank
    rcases lt_trichotomy a.player_score b.player_score with h | h | h
    · exact Or.inr (Or.inl h)
    · rcases le_total a.creation_timestamp b.creation_timestamp with h' | h'
      · exact Or.inl (Or.inr ⟨h, h'⟩)
      · exact Or.inr (Or.inr ⟨h.symm, h'⟩)
    · exact Or.inl (Or.inl h)

instance : IsTrans HighscoreTableEntryRow scoreRank where
  trans a b c hab hbc := by
    unfold scoreRank at *
    rcases hab with hab | ⟨hab, hab'⟩ <;> rcases hbc with hbc | ⟨hbc, hbc'⟩
    · exact Or.inl (hbc.trans hab)
    · exact Or.inl (hbc ▸ hab)
    · exact Or.inl (hab ▸ hbc)
    · exact Or.inr ⟨hab.trans hbc, hab'.trans hbc'⟩

/-- Rows of one table, in the order produced by
`ORDER BY (player_score DESC, creation_timestamp ASC)`.  SQL leaves the
order of fully tied rows unspecified; the model fixes insertion sort as the
representative ordering. -/
def rankedRowsForTable (entries : List HighscoreTableEntryRow)
    (table_id : Int) : List HighscoreTableEntryRow :=
  List.insertionSort scoreRank
    (entries.filter (fun e => e.highscore_table_id = table_id))

/-- The `remove_extra_highscore_rows` function, translated faithfully from
the source.  With `maximum_scores_retained = None` nothing happens.
Otherwise `scores_to_retain` is the id set of the ranked top
`maximum_scores_retained` rows *of the given table*, and the delete then
removes every row of the whole `highscore_table_entries` table — with no
filter on `highscore_table_id` — whose id is not in that set. -/
def remove_extra_highscore_rows (table_id : Int)
    (maximum_scores_retained : Option Int)
    (entries : List HighscoreTableEntryRow) : List HighscoreTableEntryRow :=
  match maximum_scores_retained with
  | none => entries
  | some n =>
    let scores_to_retain :=
      ((rankedRowsForTable entries table_id).take n.toNat).map (·.id)
    entries.filter (fun e => e.id ∈ scores_to_retain)

/-! ### Table lookup joins and the score-submission endpoint -/

/-- The inner join `highscore_tables INNER JOIN games` used by the
game-facing endpoints. -/
def tableGameJoin (tables : List HighscoreTableRow) (games : List GameRow) :
    List (HighscoreTableRow × GameRow) :=
  tables.flatMap (fun t =>
    (games.filter (fun g => g.id = t.game_id)).map (fun g => (t, g)))

/-- The joined lookup of `post_new_highscore_table_score`: filter the join
on `table_uuid` and on the authenticated `game_uuid`, select
`(id, maximum_scores_retained)`, first row if any. -/
def findTableForGame (tables : List HighscoreTableRow) (games : List GameRow)
    (table_uuid game_uuid : Uuid) : Option (Int × Option Int) :=
  ((tableGameJoin tables games).filter
      (fun tg => tg.1.table_uuid = table_uuid ∧ tg.2.game_uuid = game_uuid)).head?.map
    (fun tg => (tg.1.id, tg.1.maximum_scores_retained))

/-- Request parameters of `POST /scores/new` (`PostHighscoreTableParams`),
after envelope verification. -/
structure PostHighscoreTableParams where
  table_uuid : Uuid
  player_name : String
  player_score : Int
  player_score_metadata : Option String
deriving DecidableEq, Repr

/-- The database state touched by the highscore endpoints. -/
structure Db where
  games : List GameRow
  highscore_tables : List HighscoreTableRow
  highscore_table_entries : List HighscoreTableEntryRow
deriving DecidableEq, Repr

/-- The body of `post_new_highscore_table_score` after `full_verify` has
succeeded (lines 66–94 of `highscore_tables.rs`): look up the table by
`(table_uuid, game_uuid)` — a missing row is a diesel `NotFound`, converted
to an `ApiError` by `?` — then, in one transaction, insert the new entry
and run the retention trim.  `new_id` is the serial id and `now_ts` the
`creation_timestamp` assigned by the store at insert time.  Returns the
updated database. -/
def post_new_highscore_table_score (db : Db) (game_uuid : Uuid)
    (params : PostHighscoreTableParams) (new_id : Int) (now_ts : Int) :
    Except ApiError Db :=
  match findTableForGame db.highscore_tables db.games params.table_uuid game_uuid with
  | none => .error (ApiError.fromDiesel .NotFound)
  | some (highscore_table_id, maximum_scores_retained) =>
    let new_entry : HighscoreTableEntryRow :=
      { id := new_id
        highscore_table_id := highscore_table_id
        player_name := params.player_name
        player_score := params.player_score
        player_score_metadata := params.player_score_metadata
        creation_timestamp := now_ts }
    let entries := db.highscore_table_entries ++ [new_entry]
    let entries :=
      remove_extra_highscore_rows highscore_table_id maximum_scores_retained entries
    .ok { db with highscore_table_entries := entries }

/-! ### `get_scores_for_table` (`api.rs`, lines 382–395) -/

/-- One entry of a scores response (`ScoresResponseEntry`). -/
structure ScoresResponseEntry where
  player_name : String
  player_score : Int
  player_score_metadata : Option String
  creation_timestamp : Int
deriving DecidableEq, Repr

/-- The `From<HighscoreTableEntry> for ScoresResponseEntry` conversion. -/
def ScoresResponseEntry.fromRow (e : HighscoreTableEntryRow) : ScoresResponseEntry :=
  { player_name := e.player_name
    player_score := e.player_score
    player_score_metadata := e.player_score_metadata
    creation_timestamp := e.creation_timestamp }

/-- The canonical ranking at the level of response entries: score
descending, ties broken by creation timestamp ascending. -/
def respRank (a b : ScoresResponseEntry) : Prop :=
  b.player_score < a.player_score ∨
    (a.player_score = b.player_score ∧ a.creation_timestamp ≤ b.creation_timestamp)

/-- The `get_scores_for_table` query: filter on the table id, order by the
canonical ranking, optionally truncate to `limit`, convert each row.  The
function threads the database state through the single `SELECT`, which
leaves it unchanged. -/
def get_scores_for_table (db : Db) (highscore_table_id : Int)
    (limit : Option Nat) : List ScoresResponseEntry × Db :=
  let ranked := rankedRowsForTable db.highscore_table_entries highscore_table_id
  let rows :=
    match limit with
    | some l => ranked.take l
    | none => ranked
  (rows.map ScoresResponseEntry.fromRow, db)

/-- The body of `get_highscore_table_scores_impl` after `full_verify`
(lines 106–114 of `highscore_tables.rs`): the same joined lookup as the
score submission, then the listing. -/
def get_highscore_table_scores_impl (db : Db) (game_uuid : Uuid)
    (table_uuid : Uuid) (limit : Option Nat) :
    Except ApiError (List ScoresResponseEntry) :=
  match findTableForGame db.highscore_tables db.games table_uuid game_uuid with
  | none => .error (ApiError.fromDiesel .NotFound)
  | some (highscore_table_id, _) =>
    .ok (get_scores_for_table db highscore_table_id limit).1

/-! ### `normalize_max_scores` (`api.rs`, lines 297–309) -/

/-- The requesting user as seen by `normalize_max_scores`: only the
`is_admin` flag of the JWT claim is consulted. -/
structure DeveloperUser where
  is_admin : Bool
deriving DecidableEq, Repr

def MAX_HIGHSCORES_RETAINED_FOR_NON_ADMIN : Int := 100

/-- The `normalize_max_scores` function: admins pass through unmodified;
for everyone else a missing value or a value outside
`0..=MAX_HIGHSCORES_RETAINED_FOR_NON_ADMIN` becomes the maximum. -/
def normalize_max_scores (maximum_scores_retained : Option Int)
    (requesting_user : DeveloperUser) : Option Int :=
  if requesting_user.is_admin then
    maximum_scores_retained
  else
    match maximum_scores_retained with
    | none => some MAX_HIGHSCORES_RETAINED_FOR_NON_ADMIN
    | some n =>
      if ¬ (0 ≤ n ∧ n ≤ MAX_HIGHSCORES_RETAINED_FOR_NON_ADMIN) then
        some MAX_HIGHSCORES_RETAINED_FOR_NON_ADMIN
      else
        some n

/-! ## Theorems -/

/-- C3 (counterexample): the four verification failures are *not* reported
by one and the same response: `SecurityLevelNotAttained` carries the
message "Invalid low-security algorithm", which distinguishes it from the
generic forbidden response produced for an invalid signature. -/
theorem c3_security_level_response_is_distinguishable :
    ApiError.fromRequestBodyVerifyError .SecurityLevelNotAttained ≠
      ApiError.fromRequestBodyVerifyError (.VerificationError .mk) := by
  decide

/-- C3 (amended): all four verification failures are reported with HTTP
status 403; `SignatureInvalid`, `StaleOrFutureTimestamp` and
`ReplayDetected` produce the identical generic forbidden response, while
`SecurityLevelNotAttained` keeps status 403 but carries the distinguishing
message "Invalid low-security algorithm"; `GameNotFound` is reported as 404
"No such game". -/
theorem c3_error_reporting :
    (ApiError.fromRequestBodyVerifyError (.VerificationError .mk)).status = 403 ∧
    (ApiError.fromRequestBodyVerifyError .BadRequestTimestamp).status = 403 ∧
    (ApiError.fromRequestBodyVerifyError .RequestAlreadySeen).status = 403 ∧
    (ApiError.fromRequestBodyVerifyError .SecurityLevelNotAttained).status = 403 ∧
    ApiError.fromRequestBodyVerifyError (.VerificationError .mk) =
      ApiError.forbidden ∧
    ApiError.fromRequestBodyVerifyError .BadRequestTimestamp =
      ApiError.forbidden ∧
    ApiError.fromRequestBodyVerifyError .RequestAlreadySeen =
      ApiError.forbidden ∧
    ApiError.fromRequestBodyVerifyError .SecurityLevelNotAttained =
      ⟨403, "Invalid low-security algorithm"⟩ ∧
    ApiError.fromRequestBodyVerifyError .NoSuchGame = ⟨404, "No such game"⟩ := by
  decide

/-- C5: the security-level gate runs strictly before signature
verification: whenever the envelope deserializes, the game is found, and
the chosen algorithm's security level is below the game's configured
minimum, `full_verify_at_time` fails with `SecurityLevelNotAttained`, with
no assumption whatsoever about the signature. -/
theorem c5_security_gate_before_signature {T : Type}
    (jsonFromStr : List Nat → Except DeserializeError (GameRequestBody T))
    (sha1Fn sha256Fn : String → List Nat) (payload : GameRequestPayload)
    (games : List GameRow) (L1 L2 : List Uuid) (now : Int)
    (body : GameRequestBody T) (secret_key : String) (security_level : Int)
    (hdeser : payload.deserialize jsonFromStr = .ok body)
    (hgame : firstGameKeyAndLevel games body.game_uuid =
      some (secret_key, security_level))
    (hlvl : (body.algo.into_hasher sha1Fn sha256Fn).security_level.toInt <
      security_level) :
    full_verify_at_time jsonFromStr sha1Fn sha256Fn payload games L1 L2 now =
      .error .SecurityLevelNotAttained := by
  unfold full_verify_at_time
  simp only [hdeser, hgame]
  rw [if_pos hlvl]

/-- C5 (witness): a game with minimum level `High` (10) rejects an envelope
signed with the `Low` algorithm with `SecurityLevelNotAttained`, even
though the very same signature verifies under that weaker algorithm. -/
theorem c5_security_gate_before_signature_witness :
    GameRequestPayload.verify ⟨"", ""⟩ "k"
      (RequestAlgorithm.Sha1.into_hasher (fun _ => []) (fun _ => [])) = .ok () ∧
    full_verify_at_time
      (fun _ => .ok (⟨100, 7, 0, .Sha1, ()⟩ : GameRequestBody Unit))
      (fun _ => []) (fun _ => []) ⟨"", ""⟩ [⟨1, 100, "k", 10⟩] [] [] 0 =
      .error .SecurityLevelNotAttained := by
  refine ⟨rfl, ?_⟩
  exact c5_security_gate_before_signature
    (fun _ => .ok (⟨100, 7, 0, .Sha1, ()⟩ : GameRequestBody Unit))
    (fun _ => []) (fun _ => []) ⟨"", ""⟩ [⟨1, 100, "k", 10⟩] [] [] 0
    ⟨100, 7, 0, .Sha1, ()⟩ "k" 10 rfl rfl (by decide)

/-- C7: `GameRequestPayload::verify` succeeds if and only if the base64url
decoding of `signature_base64` exists and equals, byte for byte, the hash
of `payload_base64 ++ "." ++ secret_key` under the envelope's algorithm;
every failure of `verify` is the single signature-failure value
`VerificationError`, whose kind is distinct from the deserialize-failure
kind of the request-error taxonomy. -/
theorem c7_payload_verify_spec (p : GameRequestPayload) (secret_key : String)
    (hasher : Hasher) :
    (p.verify secret_key hasher = .ok () ↔
      b64urlDecode p.signature_base64 =
        some (hasher.apply_hash (p.payload_base64 ++ "." ++ secret_key))) ∧
    (p.verify secret_key hasher = .ok () ∨
      p.verify secret_key hasher = .error .mk) ∧
    (∀ e : DeserializeError,
      RequestBodyVerifyError.VerificationError .mk ≠
        RequestBodyVerifyError.DeserializeError e) := by
  refine ⟨?_, ?_, fun e h => by cases h⟩
  · unfold GameRequestPayload.verify
    cases hdec : b64urlDecode p.signature_base64 with
    | none => simp [hdec]
    | some given =>
      simp only [hdec]
      by_cases hne : hasher.apply_hash (p.payload_base64 ++ "." ++ secret_key) ≠ given
      · rw [if_pos hne]
        simp
        exact fun h => absurd h.symm hne
      · rw [if_neg hne]
        push_neg at hne
        simp [hne]
  · unfold GameRequestPayload.verify
    cases hdec : b64urlDecode p.signature_base64 with
    | none => simp [hdec]
    | some given =>
      simp only [hdec]
      by_cases hne : hasher.apply_hash (p.payload_base64 ++ "." ++ secret_key) ≠ given
      · rw [if_pos hne]; right; rfl
      · rw [if_neg hne]; left; rfl

/-- C10: `normalize_max_scores` passes an admin's value through unmodified;
for a non-admin it always produces `Some n` with `0 ≤ n ≤ 100`, where an
omitted value or a value outside `[0, 100]` becomes 100 and an in-range
value is kept. -/
theorem c10_normalize_max_scores_spec (m : Option Int) (u : DeveloperUser) :
    (u.is_admin = true → normalize_max_scores m u = m) ∧
    (u.is_admin = false →
      ∃ n : Int, normalize_max_scores m u = some n ∧ 0 ≤ n ∧ n ≤ 100 ∧
        (m = none → n = 100) ∧
        (∀ k : Int, m = some k → ¬(0 ≤ k ∧ k ≤ 100) → n = 100) ∧
        (∀ k : Int, m = some k → 0 ≤ k → k ≤ 100 → n = k)) := by
  constructor
  · intro h
    unfold normalize_max_scores
    rw [h]
    simp
  · intro h
    unfold normalize_max_scores MAX_HIGHSCORES_RETAINED_FOR_NON_ADMIN
    rw [h]
    cases m with
    | none =>
      refine ⟨100, by simp, by norm_num, by norm_num, fun _ => rfl,
        fun k hk => ?_, fun k hk => ?_⟩
      · exact absurd hk (by simp)
      · exact fun _ _ => absurd hk (by simp)
    | some k =>
      by_cases hk : 0 ≤ k ∧ k ≤ 100
      · refine ⟨k, by simp [hk], hk.1, hk.2, ?_, ?_, ?_⟩
        · intro h'; cases h'
        · intro k' hk' hbad
          rw [Option.some.injEq] at hk'
          subst hk'
          exact absurd hk hbad
        · intro k' hk' _ _
          rw [Option.some.injEq] at hk'
          exact hk'
      · refine ⟨100, by simp [hk], by norm_num, by norm_num, ?_, ?_, ?_⟩
        · intro h'; cases h'
        · intro k' _ _; rfl
        · intro k' hk' h1 h2
          rw [Option.some.injEq] at hk'
          subst hk'
          exact absurd ⟨h1, h2⟩ hk

/-- C10 (witness): an admin's out-of-range value (250) passes through; a
non-admin's is clamped to 100. -/
theorem c10_normalize_max_scores_witness :
    normalize_max_scores (some 250) ⟨true⟩ = some 250 ∧
    normalize_max_scores (some 250) ⟨false⟩ = some 100 := by
  constructor
  · exact (c10_normalize_max_scores_spec (some 250) ⟨true⟩).1 rfl
  · obtain ⟨n, hn, _, _, _, hout, _⟩ :=
      (c10_normalize_max_scores_spec (some 250) ⟨false⟩).2 rfl
    rw [hn, hout 250 rfl (by norm_num)]

/-- C6: once deserialization, game lookup, the security gate and the
signature check have passed, `full_verify_at_time` fails with
`BadRequestTimestamp` exactly when `|now - request_timestamp|` exceeds
`TIME_SKEW`, and `TIME_SKEW` is two days (172800 seconds) with an inclusive
boundary: a skew of exactly 172800 is never rejected for its timestamp. -/
theorem c6_timestamp_window {T : Type}
    (jsonFromStr : List Nat → Except DeserializeError (GameRequestBody T))
    (sha1Fn sha256Fn : String → List Nat) (payload : GameRequestPayload)
    (games : List GameRow) (L1 L2 : List Uuid) (now : Int)
    (body : GameRequestBody T) (secret_key : String) (security_level : Int)
    (hdeser : payload.deserialize jsonFromStr = .ok body)
    (hgame : firstGameKeyAndLevel games body.game_uuid =
      some (secret_key, security_level))
    (hlvl : ¬ ((body.algo.into_hasher sha1Fn sha256Fn).security_level.toInt <
      security_level))
    (hsig : payload.verify secret_key (body.algo.into_hasher sha1Fn sha256Fn) =
      .ok ()) :
    TIME_SKEW = 172800 ∧
    (full_verify_at_time jsonFromStr sha1Fn sha256Fn payload games L1 L2 now =
        .error .BadRequestTimestamp ↔
      |now - body.request_timestamp| > TIME_SKEW) := by
  refine ⟨rfl, ?_⟩
  unfold full_verify_at_time
  simp only [hdeser, hgame]
  rw [if_neg hlvl]
  simp only [hsig]
  by_cases ht : |now - body.request_timestamp| > TIME_SKEW
  · rw [if_pos ht]
    simpa using ht
  · rw [if_neg ht]
    refine ⟨fun h => ?_, fun h => absurd h ht⟩
    exfalso
    by_cases hm : body.request_uuid ∈ L1
    · rw [if_pos hm] at h
      exact RequestBodyVerifyError.noConfusion (Except.error.inj h)
    · rw [if_neg hm] at h
      unfold insertHistoricalRequest at h
      by_cases hm2 : body.request_uuid ∈ L2
      · rw [if_pos hm2] at h
        simp at h
      · rw [if_neg hm2] at h
        simp at h

/-- C6 (witness): with the other checks passing and a fresh request UUID, a
timestamp exactly two days (172800 s) in the past is accepted outright,
while two days and one second (172801 s) is rejected with
`BadRequestTimestamp`. -/
theorem c6_timestamp_window_witness :
    full_verify_at_time
      (fun _ => .ok (⟨100, 7, 0, .Sha256, ()⟩ : GameRequestBody Unit))
      (fun _ => []) (fun _ => []) ⟨"", ""⟩ [⟨1, 100, "k", 0⟩] [] [] 172800 =
      .ok (⟨100, 7, 0, .Sha256, ()⟩, [7]) ∧
    full_verify_at_time
      (fun _ => .ok (⟨100, 7, 0, .Sha256, ()⟩ : GameRequestBody Unit))
      (fun _ => []) (fun _ => []) ⟨"", ""⟩ [⟨1, 100, "k", 0⟩] [] [] 172801 =
      .error .BadRequestTimestamp := by
  constructor
  · rfl
  · exact (c6_timestamp_window
      (fun _ => .ok (⟨100, 7, 0, .Sha256, ()⟩ : GameRequestBody Unit))
      (fun _ => []) (fun _ => []) ⟨"", ""⟩ [⟨1, 100, "k", 0⟩] [] [] 172801
      ⟨100, 7, 0, .Sha256, ()⟩ "k" 0 rfl rfl (by decide) rfl).2.mpr (by decide)

/-- C1 (counterexample): when a concurrent request commits the same
`request_uuid` between the existence check and the ledger insert, the
insert failure is *not* reported as the same error as a detected replay:
it surfaces as `DieselError` (a unique violation), which maps to a 409
conflict response, while `RequestAlreadySeen` maps to the generic 403
forbidden response. -/
theorem c1_replay_insert_conflict_counterexample :
    full_verify_at_time
      (fun _ => .ok (⟨100, 7, 0, .Sha256, ()⟩ : GameRequestBody Unit))
      (fun _ => []) (fun _ => []) ⟨"", ""⟩ [⟨1, 100, "k", 0⟩] [] [7] 0 =
      .error (.DieselError (.DatabaseError .UniqueViolation
        "duplicate key value violates unique constraint")) ∧
    RequestBodyVerifyError.DieselError
      (.DatabaseError .UniqueViolation
        "duplicate key value violates unique constraint") ≠
      RequestBodyVerifyError.RequestAlreadySeen ∧
    ApiError.fromRequestBodyVerifyError
      (.DieselError (.DatabaseError .UniqueViolation
        "duplicate key value violates unique constraint")) ≠
      ApiError.fromRequestBodyVerifyError .RequestAlreadySeen := by
  exact ⟨rfl, by decide, by decide⟩

/-- C1 (amended): a `request_uuid` already committed to the replay ledger is
never accepted: if it is present at the existence check the result is
`RequestAlreadySeen`, and if it was committed concurrently between the
check and the insert the insert fails with a diesel unique violation —
reported as a 409 conflict, not as the 403 forbidden of a detected replay.
In either case verification never succeeds. -/
theorem c1_replay_ledger_rejection {T : Type}
    (jsonFromStr : List Nat → Except DeserializeError (GameRequestBody T))
    (sha1Fn sha256Fn : String → List Nat) (payload : GameRequestPayload)
    (games : List GameRow) (L1 L2 : List Uuid) (now : Int)
    (body : GameRequestBody T) (secret_key : String) (security_level : Int)
    (hdeser : payload.deserialize jsonFromStr = .ok body)
    (hgame : firstGameKeyAndLevel games body.game_uuid =
      some (secret_key, security_level))
    (hlvl : ¬ ((body.algo.into_hasher sha1Fn sha256Fn).security_level.toInt <
      security_level))
    (hsig : payload.verify secret_key (body.algo.into_hasher sha1Fn sha256Fn) =
      .ok ())
    (htime : ¬ (|now - body.request_timestamp| > TIME_SKEW)) :
    (body.request_uuid ∈ L1 →
      full_verify_at_time jsonFromStr sha1Fn sha256Fn payload games L1 L2 now =
        .error .RequestAlreadySeen) ∧
    (body.request_uuid ∉ L1 → body.request_uuid ∈ L2 →
      full_verify_at_time jsonFromStr sha1Fn sha256Fn payload games L1 L2 now =
        .error (.DieselError (.DatabaseError .UniqueViolation
          "duplicate key value violates unique constraint"))) ∧
    (∀ info : String,
      ApiError.fromRequestBodyVerifyError
        (.DieselError (.DatabaseError .UniqueViolation info)) =
        ApiError.conflict ("Uniqueness error: " ++ info)) ∧
    ApiError.fromRequestBodyVerifyError .RequestAlreadySeen =
      ApiError.forbidden ∧
    (body.request_uuid ∈ L1 ∨ body.request_uuid ∈ L2 →
      ∀ r, full_verify_at_time jsonFromStr sha1Fn sha256Fn payload games L1 L2
        now ≠ .ok r) := by
  have hbase :
      full_verify_at_time jsonFromStr sha1Fn sha256Fn payload games L1 L2 now =
        if body.request_uuid ∈ L1 then .error .RequestAlreadySeen
        else match insertHistoricalRequest L2 body.request_uuid with
          | .error e => .error (.DieselError e)
          | .ok ledger => .ok (body, ledger) := by
    unfold full_verify_at_time
    simp only [hdeser, hgame]
    rw [if_neg hlvl]
    simp only [hsig]
    rw [if_neg htime]
  refine ⟨fun hm => ?_, fun hm hm2 => ?_, fun _ => rfl, rfl, fun hmem r => ?_⟩
  · rw [hbase, if_pos hm]
  · rw [hbase, if_neg hm]
    unfold insertHistoricalRequest
    rw [if_pos hm2]
  · rw [hbase]
    by_cases hm : body.request_uuid ∈ L1
    · rw [if_pos hm]
      exact fun h => Except.noConfusion h
    · rw [if_neg hm]
      have hm2 : body.request_uuid ∈ L2 := hmem.resolve_left hm
      unfold insertHistoricalRequest
      rw [if_pos hm2]
      exact fun h => Except.noConfusion h

/-- C1 (witness): a concrete run of each rejection shape: a replayed UUID
seen by the existence check yields `RequestAlreadySeen`, and a UUID that
appears only at insert time yields the diesel unique-violation error. -/
theorem c1_replay_ledger_rejection_witness :
    full_verify_at_time
      (fun _ => .ok (⟨100, 7, 0, .Sha256, ()⟩ : GameRequestBody Unit))
      (fun _ => []) (fun _ => []) ⟨"", ""⟩ [⟨1, 100, "k", 0⟩] [7] [7] 0 =
      .error .RequestAlreadySeen ∧
    full_verify_at_time
      (fun _ => .ok (⟨100, 7, 0, .Sha256, ()⟩ : GameRequestBody Unit))
      (fun _ => []) (fun _ => []) ⟨"", ""⟩ [⟨1, 100, "k", 0⟩] [] [7] 0 =
      .error (.DieselError (.DatabaseError .UniqueViolation
        "duplicate key value violates unique constraint")) := by
  constructor
  · exact (c1_replay_ledger_rejection
      (fun _ => .ok (⟨100, 7, 0, .Sha256, ()⟩ : GameRequestBody Unit))
      (fun _ => []) (fun _ => []) ⟨"", ""⟩ [⟨1, 100, "k", 0⟩] [7] [7] 0
      ⟨100, 7, 0, .Sha256, ()⟩ "k" 0 rfl rfl (by decide) rfl (by decide)).1
      (by decide)
  · exact (c1_replay_ledger_rejection
      (fun _ => .ok (⟨100, 7, 0, .Sha256, ()⟩ : GameRequestBody Unit))
      (fun _ => []) (fun _ => []) ⟨"", ""⟩ [⟨1, 100, "k", 0⟩] [] [7] 0
      ⟨100, 7, 0, .Sha256, ()⟩ "k" 0 rfl rfl (by decide) rfl
      (by decide)).2.1 (by decide) (by decide)

/-- C2 (code observation): the retention trim is *not* confined to the
inserted entry's table.  Concretely: a database with table 1
(`max_retained = 1`, one entry of score 50) and table 2 (unlimited, one
entry of score 99, id 11); submitting a score of 60 to table 1 leaves only
the new table-1 entry in the whole `highscore_table_entries` table — the
table-2 row, whose table id differs from the inserted entry's, has been
deleted, because the delete filters only on `id NOT IN (top rows of table
1)` with no filter on `highscore_table_id`. -/
theorem c2_retention_trim_deletes_other_tables :
    ∃ db' : Db,
      post_new_highscore_table_score
        ⟨[⟨1, 100, "k", 10⟩],
         [⟨1, 1, 500, some 1⟩, ⟨2, 1, 501, none⟩],
         [⟨10, 1, "a", 50, none, 0⟩, ⟨11, 2, "b", 99, none, 0⟩]⟩
        100 ⟨500, "c", 60, none⟩ 12 5 = .ok db' ∧
      db'.highscore_table_entries = [⟨12, 1, "c", 60, none, 5⟩] ∧
      (⟨11, 2, "b", 99, none, 0⟩ : HighscoreTableEntryRow) ∉
        db'.highscore_table_entries := by
  exact ⟨_, rfl, rfl, by decide⟩

/-- C9: when no highscore table with the requested `table_uuid` belongs to
the authenticated game, the joined lookup finds no row, and both the score
submission and the score listing are rejected with the 404 response that
the diesel `NotFound` converts to — a client authenticated for one game can
neither write nor read another game's table. -/
theorem c9_cross_game_table_isolation (db : Db) (game_uuid table_uuid : Uuid)
    (hmismatch : ∀ tg ∈ tableGameJoin db.highscore_tables db.games,
      tg.1.table_uuid = table_uuid → tg.2.game_uuid ≠ game_uuid) :
    findTableForGame db.highscore_tables db.games table_uuid game_uuid =
      none ∧
    (∀ (params : PostHighscoreTableParams) (new_id now_ts : Int),
      params.table_uuid = table_uuid →
      post_new_highscore_table_score db game_uuid params new_id now_ts =
        .error ApiError.not_found) ∧
    (∀ limit : Option Nat,
      get_highscore_table_scores_impl db game_uuid table_uuid limit =
        .error ApiError.not_found) := by
  have hfind : findTableForGame db.highscore_tables db.games table_uuid
      game_uuid = none := by
    unfold findTableForGame
    have : (tableGameJoin db.highscore_tables db.games).filter
        (fun tg => decide (tg.1.table_uuid = table_uuid ∧
          tg.2.game_uuid = game_uuid)) = [] := by
      rw [List.filter_eq_nil_iff]
      intro tg htg
      simp only [decide_eq_true_eq, not_and]
      exact fun h1 => hmismatch tg htg h1
    rw [this]
    rfl
  refine ⟨hfind, fun params new_id now_ts hp => ?_, fun limit => ?_⟩
  · unfold post_new_highscore_table_score
    rw [hp, hfind]
    rfl
  · unfold get_highscore_table_scores_impl
    rw [hfind]
    rfl

/-- C9 (witness): a concrete database with one table owned by the game with
UUID 100; a client authenticated as game 200 can neither post to nor list
that table. -/
theorem c9_cross_game_table_isolation_witness :
    findTableForGame
      [(⟨1, 1, 500, some 5⟩ : HighscoreTableRow)] [⟨1, 100, "k", 10⟩] 500 200 =
      none ∧
    post_new_highscore_table_score
      ⟨[⟨1, 100, "k", 10⟩], [⟨1, 1, 500, some 5⟩],
       [⟨10, 1, "a", 50, none, 0⟩]⟩ 200 ⟨500, "p", 1, none⟩ 11 9 =
      .error ApiError.not_found ∧
    get_highscore_table_scores_impl
      ⟨[⟨1, 100, "k", 10⟩], [⟨1, 1, 500, some 5⟩],
       [⟨10, 1, "a", 50, none, 0⟩]⟩ 200 500 none =
      .error ApiError.not_found := by
  have h := c9_cross_game_table_isolation
    ⟨[⟨1, 100, "k", 10⟩], [⟨1, 1, 500, some 5⟩], [⟨10, 1, "a", 50, none, 0⟩]⟩
    200 500 (by decide)
  exact ⟨h.1, h.2.1 ⟨500, "p", 1, none⟩ 11 9 rfl, h.2.2 none⟩

/-- C8: `get_scores_for_table` performs no writes (the threaded database
state is returned unchanged, with or without a limit); without a limit it
returns a list sorted by the canonical ranking whose entries are exactly
the converted rows of the requested table; with a limit it returns exactly
the first `limit` entries of that listing. -/
theorem c8_get_scores_spec (db : Db) (tid : Int) :
    (get_scores_for_table db tid none).2 = db ∧
    (∀ limit : Nat, (get_scores_for_table db tid (some limit)).2 = db) ∧
    List.Pairwise respRank (get_scores_for_table db tid none).1 ∧
    (get_scores_for_table db tid none).1.Perm
      ((db.highscore_table_entries.filter
        (fun e => e.highscore_table_id = tid)).map ScoresResponseEntry.fromRow) ∧
    (∀ limit : Nat, (get_scores_for_table db tid (some limit)).1 =
      (get_scores_for_table db tid none).1.take limit) := by
  refine ⟨rfl, fun _ => rfl, ?_, ?_, fun limit => ?_⟩
  · unfold get_scores_for_table rankedRowsForTable
    rw [List.pairwise_map]
    have hs := List.sorted_insertionSort scoreRank
      (db.highscore_table_entries.filter (fun e => e.highscore_table_id = tid))
    exact hs.imp (fun h => h)
  · unfold get_scores_for_table rankedRowsForTable
    exact (List.perm_insertionSort scoreRank _).map ScoresResponseEntry.fromRow
  · show List.map ScoresResponseEntry.fromRow
      ((rankedRowsForTable db.highscore_table_entries tid).take limit) =
      (List.map ScoresResponseEntry.fromRow
        (rankedRowsForTable db.highscore_table_entries tid)).take limit
    exact List.map_take _ _ _

/-- Helper: in a list of entry rows whose ids are pairwise distinct, a row
is determined by its id. -/
theorem row_eq_of_id_eq {l : List HighscoreTableEntryRow}
    (hn : (l.map (fun e => e.id)).Nodup) {a b : HighscoreTableEntryRow}
    (ha : a ∈ l) (hb : b ∈ l) (hid : a.id = b.id) : a = b :=
  (List.nodup_map_iff_inj_on (List.Nodup.of_map _ hn)).mp hn a ha b hb hid

/-- C4: after a successful score submission to a table with
`max_retained = N`, the rows of *that* table are exactly (a permutation of)
the ranked top `N` of the table's entries after the insert, in particular
at most `N` of them; with `max_retained = None` no row is removed (the
final state is exactly the old entries plus the new one).  The id-freshness
hypothesis `hnodup` is the store's primary-key invariant. -/
theorem c4_retention_invariant (db : Db) (game_uuid : Uuid)
    (params : PostHighscoreTableParams) (new_id now_ts : Int)
    (tid : Int) (maxRet : Option Int) (db' : Db)
    (new_entry : HighscoreTableEntryRow)
    (hne : new_entry = ⟨new_id, tid, params.player_name, params.player_score,
      params.player_score_metadata, now_ts⟩)
    (hfind : findTableForGame db.highscore_tables db.games params.table_uuid
      game_uuid = some (tid, maxRet))
    (hnodup : (((db.highscore_table_entries ++ [new_entry]).map
      (fun e => e.id))).Nodup)
    (hpost : post_new_highscore_table_score db game_uuid params new_id now_ts =
      .ok db') :
    (maxRet = none →
      db'.highscore_table_entries = db.highscore_table_entries ++ [new_entry]) ∧
    (∀ N : Int, maxRet = some N →
      (db'.highscore_table_entries.filter
          (fun e => e.highscore_table_id = tid)).Perm
        ((rankedRowsForTable (db.highscore_table_entries ++ [new_entry])
          tid).take N.toNat) ∧
      (db'.highscore_table_entries.filter
          (fun e => e.highscore_table_id = tid)).length ≤ N.toNat) := by
  unfold post_new_highscore_table_score at hpost
  rw [hfind] at hpost
  simp only [] at hpost
  have hdb' : db'.highscore_table_entries =
      remove_extra_highscore_rows tid maxRet
        (db.highscore_table_entries ++ [new_entry]) := by
    rw [hne]
    rw [← Except.ok.inj hpost]
  constructor
  · intro hnone
    subst hnone
    rw [hdb']
    rfl
  · intro N hN
    subst hN
    rw [hdb']
    unfold remove_extra_highscore_rows
    set entries := db.highscore_table_entries ++ [new_entry] with hentries
    set takeN := (rankedRowsForTable entries tid).take N.toNat with htakeN
    set retained := takeN.map (fun e => e.id) with hretained
    have hperm : (rankedRowsForTable entries tid).Perm
        (entries.filter (fun e => e.highscore_table_id = tid)) :=
      List.perm_insertionSort scoreRank _
    have hfilter_sub : (entries.filter
        (fun e => decide (e.highscore_table_id = tid))).Sublist entries :=
      List.filter_sublist entries
    have hnodup_entries : entries.Nodup := List.Nodup.of_map _ hnodup
    have hnodup_filter :
        (entries.filter (fun e => decide (e.highscore_table_id = tid))).Nodup :=
      hfilter_sub.nodup hnodup_entries
    have hnodup_ranked : (rankedRowsForTable entries tid).Nodup :=
      hperm.nodup_iff.mpr hnodup_filter
    have hnodup_takeN : takeN.Nodup :=
      (List.take_sublist _ _).nodup hnodup_ranked
    have htakeN_mem : ∀ e ∈ takeN,
        e ∈ entries ∧ e.highscore_table_id = tid := by
      intro e he
      have h1 : e ∈ rankedRowsForTable entries tid :=
        (List.take_sublist _ _).mem he
      have h2 := hperm.mem_iff.mp h1
      rw [List.mem_filter] at h2
      exact ⟨h2.1, by simpa using h2.2⟩
    have hmem_iff : ∀ e,
        e ∈ (entries.filter (fun e => decide (e.id ∈ retained))).filter
          (fun e => decide (e.highscore_table_id = tid)) ↔ e ∈ takeN := by
      intro e
      simp only [List.mem_filter, decide_eq_true_eq]
      constructor
      · rintro ⟨⟨he, hid⟩, htid⟩
        rw [hretained, List.mem_map] at hid
        obtain ⟨e', he', hide⟩ := hid
        obtain ⟨hmem', _⟩ := htakeN_mem e' he'
        have heq : e = e' := row_eq_of_id_eq hnodup he hmem' hide.symm
        rw [heq]
        exact he'
      · intro he
        obtain ⟨hmem, htid⟩ := htakeN_mem e he
        exact ⟨⟨hmem, List.mem_map_of_mem _ he⟩, htid⟩
    have hnodup_final :
        ((entries.filter (fun e => decide (e.id ∈ retained))).filter
          (fun e => decide (e.highscore_table_id = tid))).Nodup :=
      ((List.filter_sublist _).trans (List.filter_sublist _)).nodup hnodup_entries
    have hperm_final := (List.perm_ext_iff_of_nodup hnodup_final
      hnodup_takeN).mpr hmem_iff
    refine ⟨hperm_final, ?_⟩
    rw [hperm_final.length_eq, htakeN]
    exact List.length_take_le _ _

/-- C4 (witness): submitting a score of 60 to a table retaining two rows
that already holds scores 50 and 70 leaves exactly the rows with scores 70
and 60 — the ranked top two — and at most two rows. -/
theorem c4_retention_invariant_witness :
    post_new_highscore_table_score
      ⟨[⟨1, 100, "k", 10⟩], [⟨1, 1, 500, some 2⟩],
       [⟨10, 1, "a", 50, none, 0⟩, ⟨11, 1, "b", 70, none, 1⟩]⟩
      100 ⟨500, "c", 60, none⟩ 12 5 =
      .ok ⟨[⟨1, 100, "k", 10⟩], [⟨1, 1, 500, some 2⟩],
           [⟨11, 1, "b", 70, none, 1⟩, ⟨12, 1, "c", 60, none, 5⟩]⟩ ∧
    (([⟨11, 1, "b", 70, none, 1⟩, ⟨12, 1, "c", 60, none, 5⟩] :
        List HighscoreTableEntryRow).filter
          (fun e => e.highscore_table_id = 1)).Perm
      ((rankedRowsForTable
        [⟨10, 1, "a", 50, none, 0⟩, ⟨11, 1, "b", 70, none, 1⟩,
         ⟨12, 1, "c", 60, none, 5⟩] 1).take (2 : Int).toNat) ∧
    (([⟨11, 1, "b", 70, none, 1⟩, ⟨12, 1, "c", 60, none, 5⟩] :
        List HighscoreTableEntryRow).filter
          (fun e => e.highscore_table_id = 1)).length ≤ (2 : Int).toNat := by
  have h := c4_retention_invariant
    ⟨[⟨1, 100, "k", 10⟩], [⟨1, 1, 500, some 2⟩],
     [⟨10, 1, "a", 50, none, 0⟩, ⟨11, 1, "b", 70, none, 1⟩]⟩
    100 ⟨500, "c", 60, none⟩ 12 5 1 (some 2)
    ⟨[⟨1, 100, "k", 10⟩], [⟨1, 1, 500, some 2⟩],
     [⟨11, 1, "b", 70, none, 1⟩, ⟨12, 1, "c", 60, none, 5⟩]⟩
    ⟨12, 1, "c", 60, none, 5⟩ rfl rfl (by decide) rfl
  exact ⟨rfl, (h.2 2 rfl).1, (h.2 2 rfl).2⟩

end TopBanana
